import Mathlib

/-!
# Verification of the tag-collection editor and renderer

Shallow embedding of the tag-management core of a small task-management UI:

* `handleAddTag`, `handleRemoveTag`, `removeLast` embed the collection
  operations of `src/components/tags-input.tsx` (`handleAddTag`,
  `handleRemoveTag`, and the Backspace branch of `handleTagKeyDown`);
* `tagsDisplayProject` embeds the rendering policy of
  `src/components/tags-display.tsx` (`TagsDisplay`);
* `handleToggleTask` embeds the completion toggle of the task list page
  (`handleToggleTask`).

Strings are Lean `String`s; JavaScript's `trim()` / `toLowerCase()` become
`jsTrim` / `jsToLower` over the character list; array operations become
`List` operations.
-/

/-- JavaScript `String.prototype.trim`: remove leading and trailing
whitespace.  Defined over the string's character list so that the kernel can
evaluate it on concrete inputs. -/
def jsTrim (s : String) : String :=
  ⟨((s.data.dropWhile Char.isWhitespace).reverse.dropWhile
      Char.isWhitespace).reverse⟩

/-- JavaScript `String.prototype.toLowerCase`: lowercase every character. -/
def jsToLower (s : String) : String :=
  ⟨s.data.map Char.toLower⟩

/-- Normalization applied by the editor to raw input:
`tagInput.trim().toLowerCase()`. -/
def normalizeTag (s : String) : String :=
  jsToLower (jsTrim s)

/-- The editor's configuration props (`maxTags` defaults to 10,
`allowDuplicates` defaults to false in the component). -/
structure TagsConfig where
  maxTags : Nat := 10
  allowDuplicates : Bool := false
deriving Repr, DecidableEq

/-- Embedding of `handleAddTag` from `tags-input.tsx`:
normalize the staged input (trim, lowercase); if it is empty, return the
collection unchanged (`if (!trimmedTag) return`); if duplicates are not
allowed and the normalized value is already included in `tags`, return
unchanged; if the collection is at or over `maxTags`, return unchanged;
otherwise append the normalized value (`[...tags, trimmedTag]`). -/
def handleAddTag (tags : List String) (tagInput : String) (cfg : TagsConfig) :
    List String :=
  let trimmedTag := normalizeTag tagInput
  if trimmedTag.isEmpty then tags
  else if !cfg.allowDuplicates && tags.contains trimmedTag then tags
  else if tags.length ≥ cfg.maxTags then tags
  else tags ++ [trimmedTag]

/-- Embedding of `handleRemoveTag` from `tags-input.tsx`:
`tags.filter((tag) => tag !== tagToRemove)`. -/
def handleRemoveTag (tags : List String) (tagToRemove : String) :
    List String :=
  tags.filter (fun tag => tag ≠ tagToRemove)

/-- Embedding of the Backspace branch of `handleTagKeyDown` from
`tags-input.tsx`: when the collection is non-empty it calls
`handleRemoveTag(tags[tags.length - 1])`; on an empty collection nothing
happens. -/
def removeLast (tags : List String) : List String :=
  match tags.getLast? with
  | some last => handleRemoveTag tags last
  | none => tags

/-- Truthiness of the optional `maxDisplay` prop in JavaScript:
`undefined` and `0` are falsy. -/
def maxDisplayTruthy : Option Nat → Bool
  | none => false
  | some n => n ≠ 0

/-- Embedding of the `TagsDisplay` component's projection from
`tags-display.tsx`: if `tags` is empty the component returns `null`
(modelled as `none`); otherwise it renders
`displayTags = maxDisplay ? tags.slice(0, maxDisplay) : tags` and
`remainingCount = maxDisplay ? Math.max(0, tags.length - maxDisplay) : 0`
(modelled as `some (displayTags, remainingCount)`).  Note the JavaScript
conditional tests the truthiness of `maxDisplay`, so a cap of `0` takes the
same branch as an absent cap. -/
def tagsDisplayProject (tags : List String) (maxDisplay : Option Nat) :
    Option (List String × Int) :=
  if tags.isEmpty then none
  else
    let displayTags :=
      if maxDisplayTruthy maxDisplay then tags.take (maxDisplay.getD 0)
      else tags
    let remainingCount : Int :=
      if maxDisplayTruthy maxDisplay then
        max 0 ((tags.length : Int) - (maxDisplay.getD 0 : Int))
      else 0
    some (displayTags, remainingCount)

/-- Task priority: `'low' | 'medium' | 'high'`. -/
inductive TaskPriority where
  | low
  | medium
  | high
deriving Repr, DecidableEq

/-- Timestamps (`Date` values) are modelled as integers; no claim computes
on them. -/
abbrev Date := Int

/-- Embedding of the `Task` record interface from `task-detail-modal.tsx`. -/
structure TaskItem where
  id : String
  title : String
  description : Option String
  priority : TaskPriority
  tags : List String
  completed : Bool
  createdAt : Date
  dueDate : Option Date
deriving Repr, DecidableEq

/-- Embedding of `handleToggleTask` from the task list page:
`prevTasks.map((task) => task.id === id ? { ...task, completed: !task.completed } : task)`. -/
def handleToggleTask (tasks : List TaskItem) (id : String) : List TaskItem :=
  tasks.map (fun task =>
    if task.id = id then { task with completed := !task.completed } else task)

/-! ## Basic lemmas about the editor operations -/

/-- `handleAddTag` either rejects the attempt (returning the collection
unchanged) or appends the normalized input; in the second case the
collection was strictly below the limit and, when duplicates are not
allowed, the normalized input was absent. -/
lemma handleAddTag_cases (tags : List String) (input : String)
    (cfg : TagsConfig) :
    handleAddTag tags input cfg = tags ∨
      (handleAddTag tags input cfg = tags ++ [normalizeTag input] ∧
        tags.length < cfg.maxTags ∧
        (cfg.allowDuplicates = false → normalizeTag input ∉ tags)) := by
  simp only [handleAddTag]
  split_ifs with h1 h2 h3
  · exact Or.inl rfl
  · exact Or.inl rfl
  · exact Or.inl rfl
  · refine Or.inr ⟨rfl, by omega, fun hdup hmem => ?_⟩
    apply h2
    simp [hdup, List.contains, List.elem_eq_mem, hmem]

/-- `handleRemoveTag` returns a sublist of its input. -/
lemma handleRemoveTag_sublist (tags : List String) (t : String) :
    (handleRemoveTag tags t).Sublist tags :=
  List.filter_sublist tags

/-- `removeLast` returns a sublist of its input. -/
lemma removeLast_sublist (tags : List String) :
    (removeLast tags).Sublist tags := by
  unfold removeLast
  cases tags.getLast? with
  | none => exact List.Sublist.refl tags
  | some last => exact handleRemoveTag_sublist tags last

/-- Removing a value that does not occur in the collection changes
nothing. -/
lemma handleRemoveTag_of_not_mem {tags : List String} {t : String}
    (h : t ∉ tags) : handleRemoveTag tags t = tags := by
  unfold handleRemoveTag
  refine List.filter_eq_self.mpr (fun a ha => ?_)
  simp only [ne_eq, decide_eq_true_eq]
  exact fun he => h (he ▸ ha)

/-! ## Claims about the editor's add operation -/

/-- C10: `handleAddTag` either returns the collection exactly unchanged (a
rejection) or returns it with a single element appended at the end; it never
modifies, reorders, or removes an existing entry. -/
theorem claim_C10_add_unchanged_or_single_append
    (tags : List String) (input : String) (cfg : TagsConfig) :
    handleAddTag tags input cfg = tags ∨
      ∃ x, handleAddTag tags input cfg = tags ++ [x] := by
  rcases handleAddTag_cases tags input cfg with h | ⟨h, _, _⟩
  · exact Or.inl h
  · exact Or.inr ⟨_, h⟩

/-- C6: when the collection already holds `maxTags` or more entries,
`handleAddTag` returns it unchanged for every raw input, silently. -/
theorem claim_C6_add_at_limit_noop
    (tags : List String) (input : String) (cfg : TagsConfig)
    (h : cfg.maxTags ≤ tags.length) :
    handleAddTag tags input cfg = tags := by
  rcases handleAddTag_cases tags input cfg with he | ⟨_, hlt, _⟩
  · exact he
  · omega

/-- Witness for C6: adding `"d"` to a full three-tag collection with
`maxTags = 3` changes nothing. -/
theorem claim_C6_add_at_limit_noop_witness :
    ({ maxTags := 3 } : TagsConfig).maxTags ≤
        (["a", "b", "c"] : List String).length ∧
      handleAddTag ["a", "b", "c"] "d" { maxTags := 3 } = ["a", "b", "c"] :=
  ⟨by decide,
    claim_C6_add_at_limit_noop ["a", "b", "c"] "d" { maxTags := 3 } (by decide)⟩

/-- C5: when the normalized input (trim, then lowercase) is non-empty, is
not a rejected duplicate, and the collection is below the limit,
`handleAddTag` appends the normalized value at the end, preserving the prior
order; when the normalized input is empty it returns the collection
unchanged. -/
theorem claim_C5_add_appends_normalized
    (tags : List String) (input : String) (cfg : TagsConfig) :
    (normalizeTag input = "" → handleAddTag tags input cfg = tags) ∧
      (normalizeTag input ≠ "" →
        ¬(cfg.allowDuplicates = false ∧ normalizeTag input ∈ tags) →
        tags.length < cfg.maxTags →
        handleAddTag tags input cfg = tags ++ [normalizeTag input]) := by
  constructor
  · intro he
    simp only [handleAddTag]
    split_ifs with h1 h2 h3 <;> try rfl
    exact absurd ((String.isEmpty_iff _).mpr he) h1
  · intro hne hdup hlen
    simp only [handleAddTag]
    split_ifs with h1 h2 h3
    · exact absurd ((String.isEmpty_iff _).mp h1) hne
    · simp only [Bool.and_eq_true, Bool.not_eq_true', List.contains,
        List.elem_eq_mem, decide_eq_true_eq] at h2
      exact absurd h2 hdup
    · omega
    · rfl

/-- Witness for C5: `add(["a","b"], "  C  ")` appends the normalized value
`"c"`, and whitespace-only input is a no-op. -/
theorem claim_C5_add_appends_normalized_witness :
    handleAddTag ["a", "b"] "  C  " { maxTags := 10 } = ["a", "b", "c"] ∧
      handleAddTag ["a", "b"] "   " { maxTags := 10 } = ["a", "b"] := by
  constructor
  · have h :=
      (claim_C5_add_appends_normalized ["a", "b"] "  C  " { maxTags := 10 }).2
        (by decide) (by decide) (by decide)
    rw [h]; decide
  · exact
      (claim_C5_add_appends_normalized ["a", "b"] "   " { maxTags := 10 }).1
        (by decide)

/-- Counterexample to C4 as stated: `"a"` is already present in `["A"]`
post-normalization (both normalize to `"a"`), yet `handleAddTag` appends it
rather than returning the collection unchanged, because the code compares
the normalized input against the stored entries as-is. -/
theorem claim_C4_counterexample :
    normalizeTag "a" ∈ (["A"].map normalizeTag) ∧
      handleAddTag ["A"] "a" { maxTags := 10, allowDuplicates := false } ≠
        ["A"] := by
  decide

/-- C4 (amended): when the normalized input is literally present among the
stored entries (which coincides with post-normalization comparison whenever
the stored entries are themselves normalized), `handleAddTag` with
`allowDuplicates := false` returns the collection unchanged, silently. -/
theorem claim_C4_amended_duplicate_noop
    (tags : List String) (t : String) (m : Nat)
    (h : normalizeTag t ∈ tags) :
    handleAddTag tags t { maxTags := m, allowDuplicates := false } = tags := by
  simp only [handleAddTag]
  split_ifs with h1 h2 h3 <;> try rfl
  exact absurd (by simp [List.contains, List.elem_eq_mem, h]) h2

/-- Witness for C4 (amended): adding `"A"` to `["a"]` is a no-op. -/
theorem claim_C4_amended_duplicate_noop_witness :
    normalizeTag "A" ∈ (["a"] : List String) ∧
      handleAddTag ["a"] "A" { maxTags := 10, allowDuplicates := false } =
        ["a"] :=
  ⟨by decide, claim_C4_amended_duplicate_noop ["a"] "A" 10 (by decide)⟩

/-! ## Claims about the removal operations -/

/-- Removal distributes over list concatenation. -/
lemma handleRemoveTag_append (l1 l2 : List String) (t : String) :
    handleRemoveTag (l1 ++ l2) t =
      handleRemoveTag l1 t ++ handleRemoveTag l2 t :=
  List.filter_append l1 l2

/-- Removing a value from the singleton collection holding it empties it. -/
lemma handleRemoveTag_singleton_self (t : String) :
    handleRemoveTag [t] t = [] := by
  simp [handleRemoveTag]

/-- Counterexample to C2 as stated: on `["a","b","a"]` the claim predicts
`["a","b"]` (only the final entry removed, the equal earlier entry kept),
but the Backspace handler filters out every entry equal to the last value,
yielding `["b"]`. -/
theorem claim_C2_counterexample :
    removeLast ["a", "b", "a"] = ["b"] ∧
      removeLast ["a", "b", "a"] ≠ ["a", "b"] := by
  decide

/-- C2 (amended): the Backspace handler removes every entry equal in value
to the final entry; when the final entry's value does not occur earlier in
the collection (in particular on duplicate-free collections) exactly the
final entry is removed, and on the empty collection it is a no-op. -/
theorem claim_C2_amended_removeLast
    (l : List String) (x : String) (h : x ∉ l) :
    removeLast (l ++ [x]) = l ∧ removeLast ([] : List String) = [] := by
  refine ⟨?_, rfl⟩
  unfold removeLast
  rw [List.getLast?_concat]
  show handleRemoveTag (l ++ [x]) x = l
  rw [handleRemoveTag_append, handleRemoveTag_of_not_mem h,
    handleRemoveTag_singleton_self, List.append_nil]

/-- Witness for C2 (amended): Backspace on `["a","b","c"]` leaves
`["a","b"]`, and on `[]` leaves `[]`. -/
theorem claim_C2_amended_removeLast_witness :
    ("c" : String) ∉ (["a", "b"] : List String) ∧
      (removeLast (["a", "b"] ++ ["c"]) = ["a", "b"] ∧
        removeLast ([] : List String) = []) :=
  ⟨by decide, claim_C2_amended_removeLast ["a", "b"] "c" (by decide)⟩

/-- Counterexample to C3 as stated: with duplicates allowed,
`add(["newtag"], "newtag")` actually appends (the result differs from the
input collection), but the removal then deletes both copies, yielding `[]`
instead of restoring `["newtag"]`. -/
theorem claim_C3_counterexample :
    handleAddTag ["newtag"] "newtag"
        { maxTags := 10, allowDuplicates := true } ≠ ["newtag"] ∧
      handleRemoveTag
          (handleAddTag ["newtag"] "newtag"
            { maxTags := 10, allowDuplicates := true }) "newtag" ≠
        ["newtag"] := by
  decide

/-- C3 (amended): whenever `add(C, "newtag", cfg)` actually appended and
`"newtag"` was not already present in `C` (which is automatic when
`allowDuplicates` is false), removing `"newtag"` from the result restores a
collection equal to `C`. -/
theorem claim_C3_amended_round_trip
    (C : List String) (cfg : TagsConfig)
    (hadd : handleAddTag C "newtag" cfg ≠ C)
    (hmem : "newtag" ∉ C) :
    handleRemoveTag (handleAddTag C "newtag" cfg) "newtag" = C := by
  rcases handleAddTag_cases C "newtag" cfg with he | ⟨he, _, _⟩
  · exact absurd he hadd
  · rw [he]
    have hnorm : normalizeTag "newtag" = "newtag" := by decide
    rw [hnorm, handleRemoveTag_append, handleRemoveTag_of_not_mem hmem,
      handleRemoveTag_singleton_self, List.append_nil]

/-- Witness for C3 (amended): `add(["a"], "newtag")` appends, and removing
`"newtag"` afterwards restores `["a"]`. -/
theorem claim_C3_amended_round_trip_witness :
    handleAddTag ["a"] "newtag" { maxTags := 10 } ≠ ["a"] ∧
      handleRemoveTag (handleAddTag ["a"] "newtag" { maxTags := 10 })
          "newtag" = ["a"] :=
  ⟨by decide,
    claim_C3_amended_round_trip ["a"] { maxTags := 10 } (by decide) (by decide)⟩

/-! ## The collection invariant -/

/-- Counterexample to C8 as stated: `["A"]` satisfies the claimed invariant
(within the limit, no two normalized-equal entries), yet adding `"a"` with
duplicates disallowed produces `["A", "a"]`, whose two entries are
normalized-equal, because the duplicate check compares the normalized input
against the stored entries as-is. -/
theorem claim_C8_counterexample :
    List.Pairwise (fun a b => normalizeTag a ≠ normalizeTag b) ["A"] ∧
      handleAddTag ["A"] "a" { maxTags := 10, allowDuplicates := false } =
        ["A", "a"] ∧
      ¬ List.Pairwise (fun a b => normalizeTag a ≠ normalizeTag b)
          ["A", "a"] := by
  decide

/-- C8 (amended): every editor operation preserves the invariant stated
with literal entry equality: starting from a collection within the size
limit whose entries are pairwise distinct, the result of add stays within
the limit and (when duplicates are not permitted) keeps entries pairwise
distinct, and the removal operations always preserve both.  On collections
whose entries are all in normal form — the only ones the editor itself
builds — literal distinctness coincides with normalized distinctness. -/
theorem claim_C8_amended_invariant_preservation
    (C : List String) (cfg : TagsConfig) (input t : String)
    (hlen : C.length ≤ cfg.maxTags) (hnodup : C.Nodup) :
    ((handleAddTag C input cfg).length ≤ cfg.maxTags ∧
        (cfg.allowDuplicates = false → (handleAddTag C input cfg).Nodup)) ∧
      ((handleRemoveTag C t).length ≤ cfg.maxTags ∧
        (handleRemoveTag C t).Nodup) ∧
      ((removeLast C).length ≤ cfg.maxTags ∧ (removeLast C).Nodup) := by
  refine ⟨⟨?_, ?_⟩, ⟨?_, ?_⟩, ⟨?_, ?_⟩⟩
  · rcases handleAddTag_cases C input cfg with he | ⟨he, hlt, _⟩
    · rw [he]; exact hlen
    · rw [he]; simp only [List.length_append, List.length_singleton]; omega
  · intro hdup
    rcases handleAddTag_cases C input cfg with he | ⟨he, _, hnin⟩
    · rw [he]; exact hnodup
    · rw [he]
      simp [List.nodup_append, hnodup, hnin hdup]
  · exact le_trans (List.Sublist.length_le (handleRemoveTag_sublist C t)) hlen
  · exact List.Nodup.sublist (handleRemoveTag_sublist C t) hnodup
  · exact le_trans (List.Sublist.length_le (removeLast_sublist C)) hlen
  · exact List.Nodup.sublist (removeLast_sublist C) hnodup

/-- Witness for C8 (amended): starting from `["a","b"]`, both a successful
add and a Backspace removal keep the entries pairwise distinct. -/
theorem claim_C8_amended_invariant_preservation_witness :
    (handleAddTag ["a", "b"] "c" { maxTags := 10 }).Nodup ∧
      (removeLast ["a", "b"]).Nodup := by
  have h := claim_C8_amended_invariant_preservation ["a", "b"]
    { maxTags := 10 } "c" "a" (by decide) (by decide)
  exact ⟨h.1.2 rfl, h.2.2.2⟩

/-! ## Claims about the renderer -/

/-- Counterexample to C1 as stated: with a zero display cap on `["a"]` the
claim predicts `visible = []` and `overflow = 1`, but `maxDisplay = 0` is
falsy in the JavaScript conditional, so the component shows every tag with
no overflow. -/
theorem claim_C1_counterexample :
    tagsDisplayProject ["a"] (some 0) = some (["a"], 0) ∧
      tagsDisplayProject ["a"] (some 0) ≠
        some (List.take 0 ["a"],
          max 0 (((["a"] : List String).length : Int) - (0 : Int))) := by
  decide

/-- C1 (amended): projecting the empty collection yields the
nothing-to-render result; on a non-empty collection, when `maxDisplay` is
absent or zero the projection shows all tags with overflow `0`, and for a
positive cap `n` it shows the first `min(n, length)` tags in insertion
order with overflow `max(0, length - n)`; the function is total on this
whole domain. -/
theorem claim_C1_amended_projection (tags : List String) (n : Nat) :
    tagsDisplayProject [] (some n) = none ∧
      (tags ≠ [] →
        tagsDisplayProject tags none = some (tags, 0) ∧
          tagsDisplayProject tags (some 0) = some (tags, 0) ∧
          (0 < n →
            tagsDisplayProject tags (some n) =
              some (tags.take n,
                max 0 ((tags.length : Int) - (n : Int))))) := by
  constructor
  · rfl
  · intro hne
    have hne' : tags.isEmpty = false := by
      cases tags with
      | nil => exact absurd rfl hne
      | cons a l => rfl
    refine ⟨?_, ?_, ?_⟩
    · simp [tagsDisplayProject, hne', maxDisplayTruthy]
    · simp [tagsDisplayProject, hne', maxDisplayTruthy]
    · intro hn
      simp [tagsDisplayProject, hne', maxDisplayTruthy, hn.ne']

/-- Witness for C1 (amended): projections of `["a","b","c"]` with no cap,
a zero cap, and cap `2`. -/
theorem claim_C1_amended_projection_witness :
    tagsDisplayProject [] (some 2) = none ∧
      tagsDisplayProject ["a", "b", "c"] none = some (["a", "b", "c"], 0) ∧
      tagsDisplayProject ["a", "b", "c"] (some 0) =
        some (["a", "b", "c"], 0) ∧
      tagsDisplayProject ["a", "b", "c"] (some 2) =
        some ((["a", "b", "c"] : List String).take 2,
          max 0 (((["a", "b", "c"] : List String).length : Int) - (2 : Int))) := by
  have h := claim_C1_amended_projection ["a", "b", "c"] 2
  have h2 := h.2 (by decide)
  exact ⟨h.1, h2.1, h2.2.1, h2.2.2 (by decide)⟩

/-- C7: projecting the empty collection produces the distinguished
nothing-to-render result (`none`, the source's `null`) for every cap; it is
distinct from every present rendering (`some _`), and projecting a
non-empty collection never produces it. -/
theorem claim_C7_empty_renders_nothing (md : Option Nat) :
    tagsDisplayProject [] md = none ∧
      (∀ v, tagsDisplayProject [] md ≠ some v) ∧
      (∀ tags : List String, tags ≠ [] → tagsDisplayProject tags md ≠ none) := by
  refine ⟨rfl, ?_, ?_⟩
  · intro v h
    simp [tagsDisplayProject] at h
  · intro tags hne h
    have hne' : tags.isEmpty = false := by
      cases tags with
      | nil => exact absurd rfl hne
      | cons a l => rfl
    simp [tagsDisplayProject, hne'] at h

/-- Witness for C7: with cap `2`, the empty collection renders nothing
while `["a"]` does not render nothing. -/
theorem claim_C7_empty_renders_nothing_witness :
    tagsDisplayProject [] (some 2) = none ∧
      tagsDisplayProject ["a"] (some 2) ≠ none :=
  ⟨(claim_C7_empty_renders_nothing (some 2)).1,
    (claim_C7_empty_renders_nothing (some 2)).2.2 ["a"] (by decide)⟩

/-! ## The task completion toggle -/

/-- C9: `handleToggleTask` preserves the length of the task list; the entry
at each position keeps its id, title, description, priority, tags, creation
timestamp, and due timestamp; a task whose id differs from the toggled id is
unchanged, and a task with the toggled id has exactly its completion flag
flipped. -/
theorem claim_C9_toggle_frame (tasks : List TaskItem) (tid : String) :
    (handleToggleTask tasks tid).length = tasks.length ∧
      ∀ (i : Nat) (t : TaskItem), tasks[i]? = some t →
        ∃ t', (handleToggleTask tasks tid)[i]? = some t' ∧
          t'.id = t.id ∧ t'.title = t.title ∧
          t'.description = t.description ∧ t'.priority = t.priority ∧
          t'.tags = t.tags ∧ t'.createdAt = t.createdAt ∧
          t'.dueDate = t.dueDate ∧
          (t.id = tid → t'.completed = !t.completed) ∧
          (t.id ≠ tid → t' = t) := by
  constructor
  · simp [handleToggleTask]
  · intro i t ht
    refine ⟨if t.id = tid then { t with completed := !t.completed } else t,
      ?_, ?_⟩
    · simp [handleToggleTask, List.getElem?_map, ht]
    · by_cases h : t.id = tid <;> simp [h]

/-- Witness for C9: toggling id `"1"` in a one-task list flips that task's
completion flag while keeping its id. -/
theorem claim_C9_toggle_frame_witness :
    ∃ t', (handleToggleTask
          [⟨"1", "t1", none, TaskPriority.medium, ["x"], false, 0, none⟩]
          "1")[0]? = some t' ∧
        t'.id = "1" ∧ t'.completed = !false := by
  obtain ⟨t', h1, h2, _, _, _, _, _, _, h9, _⟩ :=
    (claim_C9_toggle_frame
      [⟨"1", "t1", none, TaskPriority.medium, ["x"], false, 0, none⟩] "1").2
      0 ⟨"1", "t1", none, TaskPriority.medium, ["x"], false, 0, none⟩ rfl
  exact ⟨t', h1, h2, h9 rfl⟩
